import Mathlib

set_option maxRecDepth 8000

/-!
Verification of the asset generator in installer/generate_store_assets.py.

The script is embedded shallowly: a bitmap is a structure with a width, a
height, a mode tag and a total pixel function; the Pillow operations the
script delegates to (thumbnail, paste, new, convert) are translated from
their documented semantics, with float arithmetic carried out exactly over
the rationals.  The LANCZOS resampling kernel only affects the colour
values of the pixels inside the scaled content, which no statement below
depends on; it is therefore a parameter (of type Resample) that every
theorem quantifies over.  Fallible operations (a thumbnail call whose
target is degenerate raises ZeroDivisionError in Pillow) return Option.
-/

/-- One pixel: red, green, blue, alpha channels. -/
structure RGBA where
  r : Nat
  g : Nat
  b : Nat
  a : Nat
deriving DecidableEq

instance : Inhabited RGBA := ⟨⟨0, 0, 0, 0⟩⟩

/-- An in-memory bitmap: dimensions, a Pillow mode tag and a pixel map. -/
structure PImage where
  width : Nat
  height : Nat
  mode : String
  pixel : Nat → Nat → RGBA

/-- The default image used where Python would raise instead of reading. -/
def dfltImg : PImage := ⟨0, 0, "", fun _ _ => ⟨0, 0, 0, 0⟩⟩

/-- A source image the script can actually load has positive dimensions. -/
abbrev PImage.Valid (img : PImage) : Prop := 1 ≤ img.width ∧ 1 ≤ img.height

/-- Image.copy: returns an equal, independent image. -/
def PImage.copy (img : PImage) : PImage := img

/-- Image.convert: reinterprets the pixels in the given mode.  Pixels are
already represented uniformly as RGBA quadruples here, so only the mode
tag changes. -/
def PImage.convert (img : PImage) (m : String) : PImage := { img with mode := m }

/-- Image.new(mode, (w, h), color): a solid canvas. -/
def PImage.new (m : String) (w h : Nat) (c : RGBA) : PImage :=
  ⟨w, h, m, fun _ _ => c⟩

/-- Pillow's MULDIV255 macro: (a * b + 128) with a double shift by 8,
computing a rounded a * b / 255. -/
def mulDiv255 (x y : Nat) : Nat :=
  ((x * y + 128) / 256 + (x * y + 128)) / 256

/-- Pillow's per-channel blend used by paste with a mask of alpha m. -/
def blendPix (dst src : RGBA) (m : Nat) : RGBA :=
  ⟨mulDiv255 dst.r (255 - m) + mulDiv255 src.r m,
   mulDiv255 dst.g (255 - m) + mulDiv255 src.g m,
   mulDiv255 dst.b (255 - m) + mulDiv255 src.b m,
   mulDiv255 dst.a (255 - m) + mulDiv255 src.a m⟩

/-- Image.paste(src, (px, py), mask): inside the pasted region the source
is blended over the destination through the alpha band of the mask (the
script always passes the pasted image itself as the mask when it is RGBA,
and no mask otherwise); outside the region the destination is kept.
Negative offsets crop the source, which the region test below models. -/
def PImage.paste (dst src : PImage) (px py : Int) (useMask : Bool) : PImage :=
  { dst with pixel := fun i j =>
      if px ≤ (i : Int) ∧ (i : Int) < px + src.width ∧
         py ≤ (j : Int) ∧ (j : Int) < py + src.height then
        let s := src.pixel ((i : Int) - px).toNat ((j : Int) - py).toNat
        if useMask then blendPix (dst.pixel i j) s s.a else s
      else dst.pixel i j }

/-- The resampling kernel (LANCZOS in the script) as an abstract
parameter: given the source and the new dimensions it yields the pixels
of the resized image.  Nothing proved below depends on its values. -/
def Resample : Type := PImage → Nat → Nat → Nat → Nat → RGBA

/-- round_aspect inside PIL Image.thumbnail: of floor and ceil of number,
keep the one with the smaller key (floor on a tie, as Python min does),
and never go below 1. -/
def roundAspect (number : ℚ) (key : ℤ → ℚ) : ℤ :=
  max (if key ⌊number⌋ ≤ key ⌈number⌉ then ⌊number⌋ else ⌈number⌉) 1

/-- The dimensions PIL Image.thumbnail((tx, ty)) resizes a w0 times h0
image to.  If the image already fits the bounds it is left alone.
Otherwise the aspect ratio w0 / h0 is preserved: the bound that binds is
kept exactly and the other dimension is rounded to keep the ratio, via
round_aspect with the keys the Pillow source passes.  A zero h0 or ty
makes Pillow divide by zero, modelled as none. -/
def thumbnailSize (w0 h0 tx ty : Nat) : Option (Nat × Nat) :=
  if tx ≥ w0 ∧ ty ≥ h0 then some (w0, h0)
  else if h0 = 0 then none
  else if ty = 0 then none
  else if (tx : ℚ) / (ty : ℚ) ≥ (w0 : ℚ) / (h0 : ℚ) then
    some ((roundAspect ((ty : ℚ) * ((w0 : ℚ) / (h0 : ℚ)))
            (fun n => |(w0 : ℚ) / (h0 : ℚ) - (n : ℚ) / (ty : ℚ)|)).toNat, ty)
  else
    some (tx, (roundAspect ((tx : ℚ) / ((w0 : ℚ) / (h0 : ℚ)))
            (fun n => if n = 0 then 0
                      else |(w0 : ℚ) / (h0 : ℚ) - (tx : ℚ) / (n : ℚ)|)).toNat)

/-- Image.thumbnail((tx, ty), LANCZOS): in-place fit-within resize,
modelled functionally.  When the computed size equals the current size
Pillow skips the resize and the image is untouched. -/
def thumbnail (R : Resample) (img : PImage) (tx ty : Nat) : Option PImage :=
  match thumbnailSize img.width img.height tx ty with
  | none => none
  | some (w, h) =>
    if w = img.width ∧ h = img.height then some img
    else some ⟨w, h, img.mode, fun i j => R img w h i j⟩

/-- create_square_icon(source, size): downscale a copy of the source to
fit in size times size, then center it on a transparent square canvas. -/
def createSquareIcon (R : Resample) (source : PImage) (size : Nat) : Option PImage :=
  match thumbnail R source.copy size size with
  | none => none
  | some img =>
    let result := PImage.new ("RGBA") size size ⟨0, 0, 0, 0⟩
    let x := Int.fdiv ((size : Int) - (img.width : Int)) 2
    let y := Int.fdiv ((size : Int) - (img.height : Int)) 2
    some (result.paste img x y (img.mode == ("RGBA")))

/-- icon_size = int(height * 0.6) in create_wide_icon, computed exactly. -/
def wideIconSize (height : Nat) : Nat := height * 6 / 10

/-- icon_size = min(int(height * 0.5), int(width * 0.3)) in
create_splash_screen, computed exactly. -/
def splashIconSize (width height : Nat) : Nat :=
  min (height * 5 / 10) (width * 3 / 10)

/-- create_wide_icon(source, width, height): solid background canvas,
icon downscaled to 60 percent of the height and pasted centered. -/
def createWideIcon (R : Resample) (source : PImage) (width height : Nat) : Option PImage :=
  let result := PImage.new ("RGBA") width height ⟨18, 18, 20, 255⟩
  let iconSize := wideIconSize height
  match thumbnail R source.copy iconSize iconSize with
  | none => none
  | some icon =>
    let x := Int.fdiv ((width : Int) - (icon.width : Int)) 2
    let y := Int.fdiv ((height : Int) - (icon.height : Int)) 2
    some (result.paste icon x y (icon.mode == ("RGBA")))

/-- create_splash_screen(source, width, height): like the wide banner but
with the icon bound min(int(0.5 * height), int(0.3 * width)). -/
def createSplashScreen (R : Resample) (source : PImage) (width height : Nat) : Option PImage :=
  let result := PImage.new ("RGBA") width height ⟨18, 18, 20, 255⟩
  let iconSize := splashIconSize width height
  match thumbnail R source.copy iconSize iconSize with
  | none => none
  | some icon =>
    let x := Int.fdiv ((width : Int) - (icon.width : Int)) 2
    let y := Int.fdiv ((height : Int) - (icon.height : Int)) 2
    some (result.paste icon x y (icon.mode == ("RGBA")))

/-- SQUARE_ASSETS: base name with (scale, size) pairs, in script order. -/
def SQUARE_ASSETS : List (String × List (Nat × Nat)) :=
  [("Square44x44Logo", [(100, 44), (125, 55), (150, 66), (200, 88), (400, 176)]),
   ("Square71x71Logo", [(100, 71), (125, 89), (150, 107), (200, 142), (400, 284)]),
   ("Square150x150Logo", [(100, 150), (125, 188), (150, 225), (200, 300), (400, 600)]),
   ("Square310x310Logo", [(100, 310), (125, 388), (150, 465), (200, 620), (400, 1240)]),
   ("StoreLogo", [(100, 50), (125, 63), (150, 75), (200, 100), (400, 200)])]

/-- WIDE_ASSETS: base name with (scale, (width, height)) pairs. -/
def WIDE_ASSETS : List (String × List (Nat × (Nat × Nat))) :=
  [("Wide310x150Logo",
    [(100, (310, 150)), (125, (388, 188)), (150, (465, 225)),
     (200, (620, 300)), (400, (1240, 600))])]

/-- SPLASH_SCREEN: base name with (scale, (width, height)) pairs. -/
def SPLASH_SCREEN : List (String × List (Nat × (Nat × Nat))) :=
  [("SplashScreen",
    [(100, (620, 300)), (125, (775, 375)), (150, (930, 450)), (200, (1240, 600))])]

/-- Which generator a spec-table entry is processed by. -/
inductive AssetKind where
  | square (size : Nat)
  | wide (width height : Nat)
  | splash (width height : Nat)

/-- The three generation loops of main, flattened in execution order:
every (base name, scale, dimensions) the script iterates over. -/
def allEntries : List (String × Nat × AssetKind) :=
  (SQUARE_ASSETS.flatMap fun p => p.2.map fun q => (p.1, q.1, AssetKind.square q.2)) ++
  (WIDE_ASSETS.flatMap fun p => p.2.map fun q => (p.1, q.1, AssetKind.wide q.2.1 q.2.2)) ++
  (SPLASH_SCREEN.flatMap fun p => p.2.map fun q => (p.1, q.1, AssetKind.splash q.2.1 q.2.2))

/-- The filename each loop computes: base.png for scale 100, otherwise
base.scale-N.png. -/
def fileNameOf (e : String × Nat × AssetKind) : String :=
  if e.2.1 = 100 then e.1 ++ ".png"
  else e.1 ++ ".scale-" ++ toString e.2.1 ++ ".png"

/-- One loop iteration: build the image for the entry and pair it with
its filename; none when the generator raises. -/
def genOne (R : Resample) (src : PImage) (e : String × Nat × AssetKind) :
    Option (String × PImage) :=
  (match e.2.2 with
   | AssetKind.square size => createSquareIcon R src size
   | AssetKind.wide w h => createWideIcon R src w h
   | AssetKind.splash w h => createSplashScreen R src w h).map
    fun img => (fileNameOf e, img)

/-- Run the loop bodies in order; an exception aborts the run, keeping
the files already written (second component false on abort). -/
def runList {α β : Type} (f : α → Option β) : List α → List β × Bool
  | [] => ([], true)
  | a :: as =>
    match f a with
    | none => ([], false)
    | some b =>
      let r := runList f as
      (b :: r.1, r.2)

/-- The filesystem the script reads: the preferred multi-frame icon
container (tray.ico) as the list of its frames when the file exists, the
fallback plain image (icon_preview.png) when it exists, and whether the
output directory already exists. -/
structure FS where
  ico : Option (List PImage)
  png : Option PImage
  assetsDirExists : Bool

/-- Descending order on the (area, index) key of the tuples the script
sorts with sizes.sort(reverse=True); the image component is never
compared because indices are distinct. -/
def frameKeyGE (x y : Nat × Nat × PImage) : Prop :=
  y.1 < x.1 ∨ (x.1 = y.1 ∧ y.2.1 ≤ x.2.1)

instance : DecidableRel frameKeyGE := fun x y =>
  inferInstanceAs (Decidable (y.1 < x.1 ∨ (x.1 = y.1 ∧ y.2.1 ≤ x.2.1)))

instance : IsTotal (Nat × Nat × PImage) frameKeyGE :=
  ⟨fun x y => by unfold frameKeyGE; omega⟩

instance : IsTrans (Nat × Nat × PImage) frameKeyGE :=
  ⟨fun x y z hxy hyz => by unfold frameKeyGE at *; omega⟩

/-- The loop for i in range(n_frames): seek(i); append((w * h, i, copy)). -/
def buildSizes : Nat → List PImage → List (Nat × Nat × PImage)
  | _, [] => []
  | i, f :: fs => (f.width * f.height, i, f.copy) :: buildSizes (i + 1) fs

/-- sizes.sort(reverse=True); sizes[0][2]: the frame at the head of the
list sorted by descending (area, index). -/
def selectLargestFrame (frames : List PImage) : PImage :=
  ((List.insertionSort frameKeyGE (buildSizes 0 frames)).headD (0, 0, dfltImg)).2.2

/-- Lines 108 to 128 of main: prefer the ICO container, picking the
largest frame when it holds more than one; fall back to the PNG;
otherwise fail (sys.exit(1)). -/
def selectSource (fs : FS) : Option PImage :=
  match fs.ico with
  | some frames =>
    if 1 < frames.length then some (selectLargestFrame frames)
    else some (frames.headD dfltImg)
  | none =>
    match fs.png with
    | some p => some p
    | none => none

/-- Observable outcome of a run of main: whether the output directory
exists afterwards, the files written in order, and the process exit
code. -/
structure RunOutcome where
  assetsDirExists : Bool
  writes : List (String × PImage)
  exitCode : Nat

/-- main(): create the assets directory, select and convert the source,
then generate every spec-table entry in order.  Exit code 1 when no
source exists (after the directory was already created), 0 on success. -/
def mainModel (R : Resample) (fs : FS) : RunOutcome :=
  match selectSource fs with
  | none => { assetsDirExists := true, writes := [], exitCode := 1 }
  | some s0 =>
    let source := s0.convert "RGBA"
    let r := runList (genOne R source) allEntries
    { assetsDirExists := true, writes := r.1, exitCode := if r.2 then 0 else 1 }

/-!
Python images are mutable objects.  To state that the generators never
mutate the source image they are handed, the three functions are also
given in a heap-passing form: images live in numbered cells, Image.copy
allocates a fresh cell, and the in-place operations (thumbnail, paste)
update the cell of the object they are called on, exactly as the Python
lines do.
-/

/-- A heap of image objects; cell numbers are list indices. -/
abbrev Heap := List PImage

/-- Read a cell (the default is never reached by the theorems below). -/
def Heap.read (h : Heap) (i : Nat) : PImage := (h[i]?).getD dfltImg

/-- create_square_icon in heap-passing form: img = source.copy() makes a
fresh cell; img.thumbnail(...) updates that cell; result.paste(...)
updates the result cell.  Returns the final heap and the result cell. -/
def createSquareIconH (R : Resample) (heap : Heap) (src : Nat) (size : Nat) :
    Option (Heap × Nat) :=
  let img := heap.length
  let h1 := heap ++ [(Heap.read heap src).copy]
  match thumbnail R (Heap.read h1 img) size size with
  | none => none
  | some t =>
    let h2 := h1.set img t
    let res := h2.length
    let h3 := h2 ++ [PImage.new ("RGBA") size size ⟨0, 0, 0, 0⟩]
    let x := Int.fdiv ((size : Int) - ((Heap.read h3 img).width : Int)) 2
    let y := Int.fdiv ((size : Int) - ((Heap.read h3 img).height : Int)) 2
    let h4 := h3.set res
      ((Heap.read h3 res).paste (Heap.read h3 img) x y ((Heap.read h3 img).mode == ("RGBA")))
    some (h4, res)

/-- create_wide_icon in heap-passing form (canvas allocated first, as in
the script). -/
def createWideIconH (R : Resample) (heap : Heap) (src : Nat) (width height : Nat) :
    Option (Heap × Nat) :=
  let res := heap.length
  let h1 := heap ++ [PImage.new ("RGBA") width height ⟨18, 18, 20, 255⟩]
  let iconSize := wideIconSize height
  let icon := h1.length
  let h2 := h1 ++ [(Heap.read h1 src).copy]
  match thumbnail R (Heap.read h2 icon) iconSize iconSize with
  | none => none
  | some t =>
    let h3 := h2.set icon t
    let x := Int.fdiv ((width : Int) - ((Heap.read h3 icon).width : Int)) 2
    let y := Int.fdiv ((height : Int) - ((Heap.read h3 icon).height : Int)) 2
    let h4 := h3.set res
      ((Heap.read h3 res).paste (Heap.read h3 icon) x y ((Heap.read h3 icon).mode == ("RGBA")))
    some (h4, res)

/-- create_splash_screen in heap-passing form. -/
def createSplashScreenH (R : Resample) (heap : Heap) (src : Nat) (width height : Nat) :
    Option (Heap × Nat) :=
  let res := heap.length
  let h1 := heap ++ [PImage.new ("RGBA") width height ⟨18, 18, 20, 255⟩]
  let iconSize := splashIconSize width height
  let icon := h1.length
  let h2 := h1 ++ [(Heap.read h1 src).copy]
  match thumbnail R (Heap.read h2 icon) iconSize iconSize with
  | none => none
  | some t =>
    let h3 := h2.set icon t
    let x := Int.fdiv ((width : Int) - ((Heap.read h3 icon).width : Int)) 2
    let y := Int.fdiv ((height : Int) - ((Heap.read h3 icon).height : Int)) 2
    let h4 := h3.set res
      ((Heap.read h3 res).paste (Heap.read h3 icon) x y ((Heap.read h3 icon).mode == ("RGBA")))
    some (h4, res)

/-- A resampling kernel and concrete images used by the concrete runs. -/
def R0 : Resample := fun _ _ _ _ _ => ⟨0, 0, 0, 0⟩

/-- A 1 by 1 fully red, fully visible source image. -/
def red1 : PImage := ⟨1, 1, "RGBA", fun _ _ => ⟨255, 0, 0, 255⟩⟩

/-- A 2 by 2 fully blue source image (a larger second frame). -/
def blue2 : PImage := ⟨2, 2, "RGBA", fun _ _ => ⟨0, 0, 255, 255⟩⟩

/-- A filesystem with only the fallback PNG present and no output
directory yet. -/
def fs0 : FS := ⟨none, some red1, false⟩

/-! ### Helper lemmas about round_aspect and the thumbnail size -/

theorem roundAspect_one_le (q : ℚ) (k : ℤ → ℚ) : 1 ≤ roundAspect q k :=
  le_max_right _ 1

theorem roundAspect_le (q : ℚ) (k : ℤ → ℚ) (m : ℤ) (h1 : 1 ≤ m) (hq : q ≤ (m : ℚ)) :
    roundAspect q k ≤ m := by
  unfold roundAspect
  refine max_le ?_ h1
  split
  · exact le_trans (Int.floor_le_ceil q) (Int.ceil_le.mpr hq)
  · exact Int.ceil_le.mpr hq

theorem roundAspect_near (q : ℚ) (k : ℤ → ℚ) (hq : 0 ≤ q) :
    q - 1 ≤ ((roundAspect q k : ℤ) : ℚ) ∧ ((roundAspect q k : ℤ) : ℚ) ≤ q + 1 := by
  have hfloor : q - 1 < ((⌊q⌋ : ℤ) : ℚ) := Int.sub_one_lt_floor q
  have hceil : ((⌈q⌉ : ℤ) : ℚ) < q + 1 := Int.ceil_lt_add_one q
  have hfc : ((⌊q⌋ : ℤ) : ℚ) ≤ ((⌈q⌉ : ℤ) : ℚ) := by exact_mod_cast Int.floor_le_ceil q
  have hfq : ((⌊q⌋ : ℤ) : ℚ) ≤ q := Int.floor_le q
  unfold roundAspect
  rw [Int.cast_max]
  constructor
  · refine le_trans ?_ (le_max_left _ _)
    split
    · exact le_of_lt hfloor
    · exact le_of_lt (lt_of_lt_of_le hfloor hfc)
  · refine max_le ?_ (by push_cast; linarith)
    split
    · linarith
    · exact le_of_lt hceil

/-- Full behaviour of the fit-within computation for a square bound N on
a nondegenerate source: the call succeeds, the result dimensions are
between 1 and N, a source already inside the bounds is untouched,
otherwise the longer result dimension is exactly N, and the aspect ratio
is preserved up to one pixel on the rounded dimension (stated
multiplicatively: the cross products differ by at most the longer source
dimension). -/
theorem thumbnailSize_spec (w0 h0 N : Nat) (hw : 1 ≤ w0) (hh : 1 ≤ h0) (hN : 1 ≤ N) :
    ∃ iw ih, thumbnailSize w0 h0 N N = some (iw, ih) ∧
      1 ≤ iw ∧ iw ≤ N ∧ 1 ≤ ih ∧ ih ≤ N ∧
      ((w0 ≤ N ∧ h0 ≤ N) → (iw = w0 ∧ ih = h0)) ∧
      (¬(w0 ≤ N ∧ h0 ≤ N) → max iw ih = N) ∧
      iw * h0 ≤ ih * w0 + max w0 h0 ∧ ih * w0 ≤ iw * h0 + max w0 h0 := by
  unfold thumbnailSize
  by_cases hfit : N ≥ w0 ∧ N ≥ h0
  · rw [if_pos hfit]
    refine ⟨w0, h0, rfl, hw, hfit.1, hh, hfit.2, fun _ => ⟨rfl, rfl⟩,
      fun hc => absurd ⟨hfit.1, hfit.2⟩ hc, ?_, ?_⟩
    · rw [Nat.mul_comm]; exact Nat.le_add_right _ _
    · rw [Nat.mul_comm]; exact Nat.le_add_right _ _
  · rw [if_neg hfit]
    have hh0 : ¬ h0 = 0 := by omega
    have hN0 : ¬ N = 0 := by omega
    rw [if_neg hh0, if_neg hN0]
    have hQh0 : (0 : ℚ) < (h0 : ℚ) := by exact_mod_cast Nat.pos_of_ne_zero hh0
    have hQw0 : (0 : ℚ) < (w0 : ℚ) := by exact_mod_cast Nat.lt_of_lt_of_le Nat.zero_lt_one hw
    have hQN : (0 : ℚ) < (N : ℚ) := by exact_mod_cast Nat.pos_of_ne_zero hN0
    have hNN : (N : ℚ) / (N : ℚ) = 1 := div_self (ne_of_gt hQN)
    by_cases hbr : (N : ℚ) / (N : ℚ) ≥ (w0 : ℚ) / (h0 : ℚ)
    · -- portrait or square: the height binds, the width is rounded
      rw [if_pos hbr]
      have hasp1 : (w0 : ℚ) / (h0 : ℚ) ≤ 1 := by rw [hNN] at hbr; exact hbr
      have hwh : w0 ≤ h0 := by
        have : (w0 : ℚ) ≤ (h0 : ℚ) := (div_le_one hQh0).mp hasp1
        exact_mod_cast this
      set q : ℚ := (N : ℚ) * ((w0 : ℚ) / (h0 : ℚ)) with hqdef
      have hq0 : 0 ≤ q := by positivity
      have hqN : q ≤ (N : ℚ) :=
        mul_le_of_le_one_right (le_of_lt hQN) hasp1
      set c : ℤ := roundAspect q (fun n => |(w0 : ℚ) / (h0 : ℚ) - (n : ℚ) / (N : ℚ)|) with hcdef
      have hc1 : 1 ≤ c := roundAspect_one_le _ _
      have hcN : c ≤ (N : ℤ) := by
        refine roundAspect_le _ _ _ (by exact_mod_cast hN) ?_
        exact_mod_cast hqN
      have hcz : (0 : ℤ) ≤ c := le_trans zero_le_one hc1
      have hnear := roundAspect_near q (fun n => |(w0 : ℚ) / (h0 : ℚ) - (n : ℚ) / (N : ℚ)|) hq0
      rw [← hcdef] at hnear
      have htn : ((c.toNat : ℕ) : ℤ) = c := Int.toNat_of_nonneg hcz
      refine ⟨c.toNat, N, rfl, ?_, ?_, hN, le_refl N, fun hc' => absurd hc' hfit,
        fun _ => Nat.max_eq_right ?_, ?_, ?_⟩
      · exact_mod_cast le_trans hc1 (le_of_eq htn.symm)
      · exact_mod_cast le_trans (le_of_eq htn) hcN
      · exact_mod_cast le_trans (le_of_eq htn) hcN
      · -- c.toNat * h0 ≤ N * w0 + max w0 h0
        have hqh : q * (h0 : ℚ) = (N : ℚ) * (w0 : ℚ) := by
          rw [hqdef, mul_assoc, div_mul_cancel₀ _ (ne_of_gt hQh0)]
        have hcq : ((c.toNat : ℕ) : ℚ) ≤ q + 1 := by
          have : ((c : ℤ) : ℚ) ≤ q + 1 := hnear.2
          exact_mod_cast htn ▸ this
        have hmul : ((c.toNat : ℕ) : ℚ) * (h0 : ℚ) ≤ (N : ℚ) * (w0 : ℚ) + (h0 : ℚ) := by
          calc ((c.toNat : ℕ) : ℚ) * (h0 : ℚ) ≤ (q + 1) * (h0 : ℚ) :=
                mul_le_mul_of_nonneg_right hcq (le_of_lt hQh0)
            _ = q * (h0 : ℚ) + (h0 : ℚ) := by ring
            _ = (N : ℚ) * (w0 : ℚ) + (h0 : ℚ) := by rw [hqh]
        have hnat : c.toNat * h0 ≤ N * w0 + h0 := by exact_mod_cast hmul
        have : h0 ≤ max w0 h0 := le_max_right w0 h0
        omega
      · -- N * w0 ≤ c.toNat * h0 + max w0 h0
        have hqh : q * (h0 : ℚ) = (N : ℚ) * (w0 : ℚ) := by
          rw [hqdef, mul_assoc, div_mul_cancel₀ _ (ne_of_gt hQh0)]
        have hcq : q - 1 ≤ ((c.toNat : ℕ) : ℚ) := by
          have : q - 1 ≤ ((c : ℤ) : ℚ) := hnear.1
          exact_mod_cast htn ▸ this
        have hmul : (N : ℚ) * (w0 : ℚ) ≤ ((c.toNat : ℕ) : ℚ) * (h0 : ℚ) + (h0 : ℚ) := by
          have h1 : (q - 1) * (h0 : ℚ) ≤ ((c.toNat : ℕ) : ℚ) * (h0 : ℚ) :=
            mul_le_mul_of_nonneg_right hcq (le_of_lt hQh0)
          have h2 : (q - 1) * (h0 : ℚ) = (N : ℚ) * (w0 : ℚ) - (h0 : ℚ) := by
            rw [sub_mul, hqh]; ring
          linarith
        have hnat : N * w0 ≤ c.toNat * h0 + h0 := by exact_mod_cast hmul
        have : h0 ≤ max w0 h0 := le_max_right w0 h0
        omega
    · -- landscape: the width binds, the height is rounded
      rw [if_neg hbr]
      have hasp1 : 1 < (w0 : ℚ) / (h0 : ℚ) := by
        rw [hNN] at hbr; exact lt_of_not_le hbr
      have hwh : h0 < w0 := by
        have : (h0 : ℚ) < (w0 : ℚ) := by
          have := (one_lt_div hQh0).mp hasp1
          exact this
        exact_mod_cast this
      set q : ℚ := (N : ℚ) / ((w0 : ℚ) / (h0 : ℚ)) with hqdef
      have hqalt : q = (N : ℚ) * (h0 : ℚ) / (w0 : ℚ) := by
        rw [hqdef, div_div_eq_mul_div]
      have hq0 : 0 ≤ q := by rw [hqalt]; positivity
      have hqN : q ≤ (N : ℚ) := by
        rw [hqalt, div_le_iff₀ hQw0]
        have : (h0 : ℚ) ≤ (w0 : ℚ) := by exact_mod_cast le_of_lt hwh
        nlinarith
      set c : ℤ := roundAspect q
        (fun n => if n = 0 then 0 else |(w0 : ℚ) / (h0 : ℚ) - (N : ℚ) / (n : ℚ)|) with hcdef
      have hc1 : 1 ≤ c := roundAspect_one_le _ _
      have hcN : c ≤ (N : ℤ) := by
        refine roundAspect_le _ _ _ (by exact_mod_cast hN) ?_
        exact_mod_cast hqN
      have hcz : (0 : ℤ) ≤ c := le_trans zero_le_one hc1
      have hnear := roundAspect_near q
        (fun n => if n = 0 then 0 else |(w0 : ℚ) / (h0 : ℚ) - (N : ℚ) / (n : ℚ)|) hq0
      rw [← hcdef] at hnear
      have htn : ((c.toNat : ℕ) : ℤ) = c := Int.toNat_of_nonneg hcz
      have hqw : q * (w0 : ℚ) = (N : ℚ) * (h0 : ℚ) := by
        rw [hqalt, div_mul_cancel₀ _ (ne_of_gt hQw0)]
      refine ⟨N, c.toNat, rfl, hN, le_refl N, ?_, ?_, fun hc' => absurd hc' hfit,
        fun _ => Nat.max_eq_left ?_, ?_, ?_⟩
      · exact_mod_cast le_trans hc1 (le_of_eq htn.symm)
      · exact_mod_cast le_trans (le_of_eq htn) hcN
      · exact_mod_cast le_trans (le_of_eq htn) hcN
      · -- N * h0 ≤ c.toNat * w0 + max w0 h0
        have hcq : q - 1 ≤ ((c.toNat : ℕ) : ℚ) := by
          have : q - 1 ≤ ((c : ℤ) : ℚ) := hnear.1
          exact_mod_cast htn ▸ this
        have hmul : (N : ℚ) * (h0 : ℚ) ≤ ((c.toNat : ℕ) : ℚ) * (w0 : ℚ) + (w0 : ℚ) := by
          have h1 : (q - 1) * (w0 : ℚ) ≤ ((c.toNat : ℕ) : ℚ) * (w0 : ℚ) :=
            mul_le_mul_of_nonneg_right hcq (le_of_lt hQw0)
          have h2 : (q - 1) * (w0 : ℚ) = (N : ℚ) * (h0 : ℚ) - (w0 : ℚ) := by
            rw [sub_mul, hqw]; ring
          linarith
        have hnat : N * h0 ≤ c.toNat * w0 + w0 := by exact_mod_cast hmul
        have : w0 ≤ max w0 h0 := le_max_left w0 h0
        omega
      · -- c.toNat * w0 ≤ N * h0 + max w0 h0
        have hcq : ((c.toNat : ℕ) : ℚ) ≤ q + 1 := by
          have : ((c : ℤ) : ℚ) ≤ q + 1 := hnear.2
          exact_mod_cast htn ▸ this
        have hmul : ((c.toNat : ℕ) : ℚ) * (w0 : ℚ) ≤ (N : ℚ) * (h0 : ℚ) + (w0 : ℚ) := by
          calc ((c.toNat : ℕ) : ℚ) * (w0 : ℚ) ≤ (q + 1) * (w0 : ℚ) :=
                mul_le_mul_of_nonneg_right hcq (le_of_lt hQw0)
            _ = q * (w0 : ℚ) + (w0 : ℚ) := by ring
            _ = (N : ℚ) * (h0 : ℚ) + (w0 : ℚ) := by rw [hqw]
        have hnat : c.toNat * w0 ≤ N * h0 + w0 := by exact_mod_cast hmul
        have : w0 ≤ max w0 h0 := le_max_left w0 h0
        omega

/-- A successful size computation turns the thumbnail call itself into a
success with exactly those dimensions (whether or not the resize is
skipped). -/
theorem thumbnail_eq (R : Resample) (img : PImage) (tx ty a b : Nat)
    (h : thumbnailSize img.width img.height tx ty = some (a, b)) :
    ∃ t, thumbnail R img tx ty = some t ∧ t.width = a ∧ t.height = b := by
  unfold thumbnail
  rw [h]
  dsimp only
  by_cases hc : a = img.width ∧ b = img.height
  · rw [if_pos hc]
    exact ⟨img, rfl, hc.1.symm, hc.2.symm⟩
  · rw [if_neg hc]
    exact ⟨_, rfl, rfl, rfl⟩

/-- Pixels outside the pasted region keep the destination value. -/
theorem paste_outside (dst src : PImage) (px py : Int) (m : Bool) (i j : Nat)
    (h : ¬ (px ≤ (i : Int) ∧ (i : Int) < px + src.width ∧
            py ≤ (j : Int) ∧ (j : Int) < py + src.height)) :
    (dst.paste src px py m).pixel i j = dst.pixel i j := by
  unfold PImage.paste
  exact if_neg h

/-- paste keeps the destination dimensions. -/
theorem paste_width (dst src : PImage) (px py : Int) (m : Bool) :
    (dst.paste src px py m).width = dst.width := rfl

theorem paste_height (dst src : PImage) (px py : Int) (m : Bool) :
    (dst.paste src px py m).height = dst.height := rfl

/-- The centering offset (size - dim) // 2 of the script, as an integer
floor division, equals the natural number division when dim ≤ size. -/
theorem fdiv_cast (a b : Nat) (h : b ≤ a) :
    Int.fdiv ((a : Int) - (b : Int)) 2 = (((a - b) / 2 : Nat) : Int) := by
  have h1 : (a : Int) - (b : Int) = ((a - b : Nat) : Int) := by omega
  rw [h1, show ((2 : Int)) = ((2 : Nat) : Int) from rfl, ← Int.ofNat_fdiv]

/-- Working form of the square generator contract: the call succeeds, the
canvas is exactly size by size, the scaled dimensions satisfy the
fit-within bounds, and every pixel outside the centered content rectangle
keeps the fully transparent background. -/
theorem createSquareIcon_aux (R : Resample) (source : PImage) (size : Nat)
    (hv : source.Valid) (hs : 1 ≤ size) :
    ∃ res iw ih, createSquareIcon R source size = some res ∧
      thumbnailSize source.width source.height size size = some (iw, ih) ∧
      1 ≤ iw ∧ iw ≤ size ∧ 1 ≤ ih ∧ ih ≤ size ∧
      res.width = size ∧ res.height = size ∧
      (∀ i j, (i < (size - iw) / 2 ∨ (size - iw) / 2 + iw ≤ i ∨
               j < (size - ih) / 2 ∨ (size - ih) / 2 + ih ≤ j) →
        res.pixel i j = ⟨0, 0, 0, 0⟩) := by
  obtain ⟨iw, ih, hts, h1iw, hiwN, h1ih, hihN, -, -, -, -⟩ :=
    thumbnailSize_spec source.width source.height size hv.1 hv.2 hs
  obtain ⟨t, ht, htw, hth⟩ := thumbnail_eq R source.copy size size iw ih hts
  refine ⟨(PImage.new ("RGBA") size size ⟨0, 0, 0, 0⟩).paste t
      (Int.fdiv ((size : Int) - (t.width : Int)) 2)
      (Int.fdiv ((size : Int) - (t.height : Int)) 2) (t.mode == ("RGBA")),
    iw, ih, ?_, hts, h1iw, hiwN, h1ih, hihN, rfl, rfl, ?_⟩
  · unfold createSquareIcon
    rw [ht]
  · intro i j hdisj
    have hx : Int.fdiv ((size : Int) - (t.width : Int)) 2 = (((size - iw) / 2 : Nat) : Int) := by
      rw [htw]; exact fdiv_cast size iw hiwN
    have hy : Int.fdiv ((size : Int) - (t.height : Int)) 2 = (((size - ih) / 2 : Nat) : Int) := by
      rw [hth]; exact fdiv_cast size ih hihN
    refine (paste_outside _ _ _ _ _ i j ?_).trans rfl
    rw [hx, hy, htw, hth]
    intro hcon
    omega

/-- Working form of the wide banner contract: the call succeeds (the icon
bound must be at least 1 or Pillow would divide by zero), the canvas is
exactly width by height, the icon dimensions respect the bound
int(0.6 * height), and pixels outside the centered icon region keep the
background colour 18, 18, 20, 255. -/
theorem createWideIcon_aux (R : Resample) (source : PImage) (w h : Nat)
    (hv : source.Valid) (hs : 1 ≤ wideIconSize h) :
    ∃ res iw ih, createWideIcon R source w h = some res ∧
      thumbnailSize source.width source.height (wideIconSize h) (wideIconSize h) =
        some (iw, ih) ∧
      1 ≤ iw ∧ iw ≤ wideIconSize h ∧ 1 ≤ ih ∧ ih ≤ wideIconSize h ∧
      res.width = w ∧ res.height = h ∧
      (∀ (i j : Nat), ¬ (Int.fdiv ((w : Int) - (iw : Int)) 2 ≤ (i : Int) ∧
                 (i : Int) < Int.fdiv ((w : Int) - (iw : Int)) 2 + (iw : Int) ∧
                 Int.fdiv ((h : Int) - (ih : Int)) 2 ≤ (j : Int) ∧
                 (j : Int) < Int.fdiv ((h : Int) - (ih : Int)) 2 + (ih : Int)) →
        res.pixel i j = ⟨18, 18, 20, 255⟩) := by
  obtain ⟨iw, ih, hts, h1iw, hiwN, h1ih, hihN, -, -, -, -⟩ :=
    thumbnailSize_spec source.width source.height (wideIconSize h) hv.1 hv.2 hs
  obtain ⟨t, ht, htw, hth⟩ := thumbnail_eq R source.copy _ _ iw ih hts
  refine ⟨(PImage.new ("RGBA") w h ⟨18, 18, 20, 255⟩).paste t
      (Int.fdiv ((w : Int) - (t.width : Int)) 2)
      (Int.fdiv ((h : Int) - (t.height : Int)) 2) (t.mode == ("RGBA")),
    iw, ih, ?_, hts, h1iw, hiwN, h1ih, hihN, rfl, rfl, ?_⟩
  · unfold createWideIcon
    dsimp only
    rw [ht]
  · intro i j hreg
    refine (paste_outside _ _ _ _ _ i j ?_).trans rfl
    rw [htw, hth]
    exact hreg

/-- Working form of the splash screen contract, identical to the wide
banner except for the icon bound min(int(0.5 * height), int(0.3 * width)). -/
theorem createSplashScreen_aux (R : Resample) (source : PImage) (w h : Nat)
    (hv : source.Valid) (hs : 1 ≤ splashIconSize w h) :
    ∃ res iw ih, createSplashScreen R source w h = some res ∧
      thumbnailSize source.width source.height (splashIconSize w h) (splashIconSize w h) =
        some (iw, ih) ∧
      1 ≤ iw ∧ iw ≤ splashIconSize w h ∧ 1 ≤ ih ∧ ih ≤ splashIconSize w h ∧
      res.width = w ∧ res.height = h ∧
      (∀ (i j : Nat), ¬ (Int.fdiv ((w : Int) - (iw : Int)) 2 ≤ (i : Int) ∧
                 (i : Int) < Int.fdiv ((w : Int) - (iw : Int)) 2 + (iw : Int) ∧
                 Int.fdiv ((h : Int) - (ih : Int)) 2 ≤ (j : Int) ∧
                 (j : Int) < Int.fdiv ((h : Int) - (ih : Int)) 2 + (ih : Int)) →
        res.pixel i j = ⟨18, 18, 20, 255⟩) := by
  obtain ⟨iw, ih, hts, h1iw, hiwN, h1ih, hihN, -, -, -, -⟩ :=
    thumbnailSize_spec source.width source.height (splashIconSize w h) hv.1 hv.2 hs
  obtain ⟨t, ht, htw, hth⟩ := thumbnail_eq R source.copy _ _ iw ih hts
  refine ⟨(PImage.new ("RGBA") w h ⟨18, 18, 20, 255⟩).paste t
      (Int.fdiv ((w : Int) - (t.width : Int)) 2)
      (Int.fdiv ((h : Int) - (t.height : Int)) 2) (t.mode == ("RGBA")),
    iw, ih, ?_, hts, h1iw, hiwN, h1ih, hihN, rfl, rfl, ?_⟩
  · unfold createSplashScreen
    dsimp only
    rw [ht]
  · intro i j hreg
    refine (paste_outside _ _ _ _ _ i j ?_).trans rfl
    rw [htw, hth]
    exact hreg

/-! ### Helper lemmas about frame selection, the generation loop and the heap -/

theorem buildSizes_mem (l : List PImage) : ∀ k, ∀ t ∈ buildSizes k l,
    t.2.2 ∈ l ∧ t.1 = t.2.2.width * t.2.2.height := by
  induction l with
  | nil => intro k t ht; simp [buildSizes] at ht
  | cons f fs ih =>
    intro k t ht
    rw [buildSizes] at ht
    rcases List.mem_cons.mp ht with h1 | h2
    · subst h1
      exact ⟨List.mem_cons_self _ _, rfl⟩
    · obtain ⟨hm, he⟩ := ih (k + 1) t h2
      exact ⟨List.mem_cons_of_mem _ hm, he⟩

theorem buildSizes_covers (l : List PImage) : ∀ k, ∀ g ∈ l,
    ∃ t ∈ buildSizes k l, t.1 = g.width * g.height := by
  induction l with
  | nil => intro k g hg; simp at hg
  | cons f fs ih =>
    intro k g hg
    rcases List.mem_cons.mp hg with h1 | h2
    · subst h1
      exact ⟨(g.width * g.height, k, g.copy), by rw [buildSizes]; exact List.mem_cons_self _ _, rfl⟩
    · obtain ⟨t, htm, hte⟩ := ih (k + 1) g h2
      exact ⟨t, by rw [buildSizes]; exact List.mem_cons_of_mem _ htm, hte⟩

theorem buildSizes_ne_nil (l : List PImage) (k : Nat) (h : l ≠ []) :
    buildSizes k l ≠ [] := by
  cases l with
  | nil => exact absurd rfl h
  | cons f fs => rw [buildSizes]; exact List.cons_ne_nil _ _

/-- The selected frame is one of the frames and its pixel area is
maximal among all frames. -/
theorem selectLargestFrame_spec (frames : List PImage) (hne : frames ≠ []) :
    selectLargestFrame frames ∈ frames ∧
    ∀ g ∈ frames, g.width * g.height ≤
      (selectLargestFrame frames).width * (selectLargestFrame frames).height := by
  unfold selectLargestFrame
  have hperm : List.Perm (List.insertionSort frameKeyGE (buildSizes 0 frames))
      (buildSizes 0 frames) :=
    List.perm_insertionSort _ _
  have hsorted : List.Sorted frameKeyGE (List.insertionSort frameKeyGE (buildSizes 0 frames)) :=
    List.sorted_insertionSort _ _
  obtain ⟨hd, tl, hS⟩ : ∃ hd tl,
      List.insertionSort frameKeyGE (buildSizes 0 frames) = hd :: tl := by
    cases hSs : List.insertionSort frameKeyGE (buildSizes 0 frames) with
    | nil =>
      exfalso
      exact buildSizes_ne_nil frames 0 hne (hSs ▸ hperm).symm.eq_nil
    | cons a b => exact ⟨a, b, rfl⟩
  rw [hS]
  have hhdL : hd ∈ buildSizes 0 frames :=
    hperm.subset (hS ▸ List.mem_cons_self hd tl)
  obtain ⟨hdmem, hdval⟩ := buildSizes_mem frames 0 hd hhdL
  refine ⟨hdmem, ?_⟩
  intro g hg
  obtain ⟨t, htL, htval⟩ := buildSizes_covers frames 0 g hg
  have htS : t ∈ hd :: tl := hS ▸ hperm.symm.subset htL
  have hdom : t.1 ≤ hd.1 := by
    rcases List.mem_cons.mp htS with h1 | h2
    · subst h1; exact le_refl _
    · have hkey : frameKeyGE hd t := (List.sorted_cons.mp (hS ▸ hsorted)).1 t h2
      unfold frameKeyGE at hkey
      omega
  rw [List.headD_cons]
  omega

theorem runList_ok {α β : Type} (f : α → Option β) (l : List α)
    (h : ∀ a ∈ l, (f a).isSome) :
    (runList f l).2 = true ∧ (runList f l).1.length = l.length := by
  induction l with
  | nil => exact ⟨rfl, rfl⟩
  | cons a as ih =>
    obtain ⟨b, hb⟩ := Option.isSome_iff_exists.mp (h a (List.mem_cons_self a as))
    have ih2 := ih (fun x hx => h x (List.mem_cons_of_mem a hx))
    unfold runList
    rw [hb]
    dsimp only
    exact ⟨ih2.1, by simp [ih2.2]⟩

theorem runList_map {α β γ : Type} (f : α → Option β) (g : β → γ) (n : α → γ)
    (l : List α) (h : ∀ a ∈ l, (f a).isSome)
    (hg : ∀ a ∈ l, ∀ b, f a = some b → g b = n a) :
    (runList f l).1.map g = l.map n := by
  induction l with
  | nil => rfl
  | cons a as ih =>
    obtain ⟨b, hb⟩ := Option.isSome_iff_exists.mp (h a (List.mem_cons_self a as))
    have ih2 := ih (fun x hx => h x (List.mem_cons_of_mem a hx))
      (fun x hx => hg x (List.mem_cons_of_mem a hx))
    unfold runList
    rw [hb]
    dsimp only
    rw [List.map_cons, List.map_cons, ih2, hg a (List.mem_cons_self a as) b hb]

/-- The constraint on an entry under which its generator cannot raise:
the thumbnail bound it passes must be positive. -/
def kindOk : AssetKind → Prop
  | AssetKind.square n => 1 ≤ n
  | AssetKind.wide _ h => 1 ≤ wideIconSize h
  | AssetKind.splash w h => 1 ≤ splashIconSize w h

instance : DecidablePred kindOk := fun k => by
  cases k <;> (dsimp only [kindOk]; infer_instance)

theorem genOne_isSome (R : Resample) (src : PImage) (e : String × Nat × AssetKind)
    (hv : src.Valid) (hk : kindOk e.2.2) : (genOne R src e).isSome = true := by
  obtain ⟨name, sc, k⟩ := e
  cases k with
  | square n =>
    obtain ⟨res, iw, ih, heq, -⟩ := createSquareIcon_aux R src n hv hk
    simp [genOne, heq]
  | wide w h =>
    obtain ⟨res, iw, ih, heq, -⟩ := createWideIcon_aux R src w h hv hk
    simp [genOne, heq]
  | splash w h =>
    obtain ⟨res, iw, ih, heq, -⟩ := createSplashScreen_aux R src w h hv hk
    simp [genOne, heq]

theorem genOne_name (R : Resample) (src : PImage) (e : String × Nat × AssetKind)
    (b : String × PImage) (h : genOne R src e = some b) : b.1 = fileNameOf e := by
  unfold genOne at h
  obtain ⟨img, -, hb⟩ := Option.map_eq_some'.mp h
  rw [← hb]

/-- Every entry of the spec table passes a positive thumbnail bound. -/
theorem allEntries_ok : ∀ e ∈ allEntries, kindOk e.2.2 := by decide

theorem Heap.read_append (hp : Heap) (l : List PImage) (i : Nat) (hi : i < hp.length) :
    Heap.read (hp ++ l) i = Heap.read hp i := by
  unfold Heap.read
  rw [List.getElem?_append_left hi]

theorem Heap.read_set_ne (hp : Heap) (jj : Nat) (a : PImage) (i : Nat) (hij : i ≠ jj) :
    Heap.read (hp.set jj a) i = Heap.read hp i := by
  unfold Heap.read
  rw [List.getElem?_set_ne (fun he => hij he.symm)]

/-! ### Claims -/

/-- C1 (amended): given any valid source image and any state of the
output directory, main creates the directory, exits successfully and
writes exactly 34 files, one per entry of the default spec table
(25 square, 5 wide, 4 splash) - not 19 as the spec counts. -/
theorem mainModel_valid_source_writes (R : Resample) (fs : FS) (s : PImage)
    (hsel : selectSource fs = some s) (hv : s.Valid) :
    (mainModel R fs).assetsDirExists = true ∧ (mainModel R fs).exitCode = 0 ∧
    (mainModel R fs).writes.length = 34 := by
  have hv2 : (s.convert "RGBA").Valid := hv
  have hall : ∀ e ∈ allEntries, (genOne R (s.convert "RGBA") e).isSome = true :=
    fun e he => genOne_isSome R (s.convert "RGBA") e hv2 (allEntries_ok e he)
  have hrun := runList_ok (genOne R (s.convert "RGBA")) allEntries hall
  unfold mainModel
  rw [hsel]
  dsimp only
  rw [hrun.1, hrun.2]
  exact ⟨rfl, rfl, rfl⟩

/-- C1 witness: the theorem applied to the concrete red 1 by 1 PNG-only
filesystem. -/
theorem mainModel_valid_source_writes_witness :
    selectSource fs0 = some red1 ∧ red1.Valid ∧
    ((mainModel R0 fs0).assetsDirExists = true ∧ (mainModel R0 fs0).exitCode = 0 ∧
     (mainModel R0 fs0).writes.length = 34) :=
  ⟨rfl, by decide, mainModel_valid_source_writes R0 fs0 red1 rfl (by decide)⟩

/-- C1 counterexample: on a concrete valid 1 by 1 source the default
spec table produces 34 files, so the claimed count of exactly 19 files
is false. -/
theorem mainModel_writes_not_nineteen :
    (mainModel R0 fs0).writes.length = 34 ∧ ¬ (mainModel R0 fs0).writes.length = 19 := by
  constructor <;> decide

/-- C2: with the icon container present and holding several frames, the
source selected is the frame of maximal pixel area; with the container
absent the fallback image is used; with both absent the run fails with
no file written. -/
theorem selectSource_policy (frames : List PImage) (p : PImage) (png0 : Option PImage)
    (d1 d2 d3 : Bool) (hlen : 1 < frames.length) :
    (selectSource ⟨some frames, png0, d1⟩ = some (selectLargestFrame frames) ∧
     selectLargestFrame frames ∈ frames ∧
     ∀ g ∈ frames, g.width * g.height ≤
       (selectLargestFrame frames).width * (selectLargestFrame frames).height) ∧
    (selectSource ⟨none, some p, d2⟩ = some p) ∧
    (∀ R, (mainModel R ⟨none, none, d3⟩).writes = [] ∧
          (mainModel R ⟨none, none, d3⟩).exitCode = 1) := by
  have hne : frames ≠ [] := by
    intro h
    rw [h] at hlen
    simp at hlen
  obtain ⟨hmem, hmax⟩ := selectLargestFrame_spec frames hne
  refine ⟨⟨?_, hmem, hmax⟩, rfl, fun R => ⟨rfl, rfl⟩⟩
  unfold selectSource
  dsimp only
  rw [if_pos hlen]

/-- C2 witness: two concrete frames of areas 1 and 4; the larger blue
frame is selected. -/
theorem selectSource_policy_witness :
    (1 : Nat) < [red1, blue2].length ∧
    ((selectSource ⟨some [red1, blue2], none, true⟩ = some (selectLargestFrame [red1, blue2]) ∧
      selectLargestFrame [red1, blue2] ∈ [red1, blue2] ∧
      ∀ g ∈ [red1, blue2], g.width * g.height ≤
        (selectLargestFrame [red1, blue2]).width * (selectLargestFrame [red1, blue2]).height) ∧
     (selectSource ⟨none, some red1, false⟩ = some red1) ∧
     (∀ R, (mainModel R ⟨none, none, false⟩).writes = [] ∧
           (mainModel R ⟨none, none, false⟩).exitCode = 1)) :=
  ⟨by decide, selectSource_policy [red1, blue2] red1 none true false false (by decide)⟩

/-- C3: for every valid source and positive N, create_square_icon yields
an N by N image whose thumbnail dimensions (iw, ih) are centered at
offsets (N - iw) / 2 and (N - ih) / 2, and every pixel outside that
centered rectangle is fully transparent. -/
theorem createSquareIcon_spec (R : Resample) (source : PImage) (N : Nat)
    (hv : source.Valid) (hN : 1 ≤ N) :
    ∃ res iw ih, createSquareIcon R source N = some res ∧
      thumbnailSize source.width source.height N N = some (iw, ih) ∧
      res.width = N ∧ res.height = N ∧
      (∀ i j : Nat, (i < (N - iw) / 2 ∨ (N - iw) / 2 + iw ≤ i ∨
                     j < (N - ih) / 2 ∨ (N - ih) / 2 + ih ≤ j) →
        res.pixel i j = ⟨0, 0, 0, 0⟩) := by
  obtain ⟨res, iw, ih, h1, h2, -, -, -, -, h3, h4, h5⟩ :=
    createSquareIcon_aux R source N hv hN
  exact ⟨res, iw, ih, h1, h2, h3, h4, h5⟩

/-- C3 witness: the theorem applied to the red 1 by 1 source at N = 2. -/
theorem createSquareIcon_spec_witness :
    red1.Valid ∧ (1 : Nat) ≤ 2 ∧
    (∃ res iw ih, createSquareIcon R0 red1 2 = some res ∧
      thumbnailSize red1.width red1.height 2 2 = some (iw, ih) ∧
      res.width = 2 ∧ res.height = 2 ∧
      (∀ i j : Nat, (i < (2 - iw) / 2 ∨ (2 - iw) / 2 + iw ≤ i ∨
                     j < (2 - ih) / 2 ∨ (2 - ih) / 2 + ih ≤ j) →
        res.pixel i j = ⟨0, 0, 0, 0⟩)) :=
  ⟨by decide, by decide, createSquareIcon_spec R0 red1 2 (by decide) (by decide)⟩

/-- C4: the fit-within computation used by the square compositing never
exceeds the bound N, leaves a source that already fits untouched (never
upscales), and preserves the aspect ratio to within one pixel of
rounding (the cross products of the dimensions differ by at most the
longer source dimension). -/
theorem thumbnailSize_fit_within (source : PImage) (N : Nat)
    (hv : source.Valid) (hN : 1 ≤ N) :
    ∃ iw ih, thumbnailSize source.width source.height N N = some (iw, ih) ∧
      iw ≤ N ∧ ih ≤ N ∧
      ((source.width ≤ N ∧ source.height ≤ N) → iw = source.width ∧ ih = source.height) ∧
      iw * source.height ≤ ih * source.width + max source.width source.height ∧
      ih * source.width ≤ iw * source.height + max source.width source.height := by
  obtain ⟨iw, ih, h1, -, h2, -, h3, h4, -, h5, h6⟩ :=
    thumbnailSize_spec source.width source.height N hv.1 hv.2 hN
  exact ⟨iw, ih, h1, h2, h3, h4, h5, h6⟩

/-- C4 witness: the theorem applied to the blue 2 by 2 source at N = 1. -/
theorem thumbnailSize_fit_within_witness :
    blue2.Valid ∧ (1 : Nat) ≤ 1 ∧
    (∃ iw ih, thumbnailSize blue2.width blue2.height 1 1 = some (iw, ih) ∧
      iw ≤ 1 ∧ ih ≤ 1 ∧
      ((blue2.width ≤ 1 ∧ blue2.height ≤ 1) → iw = blue2.width ∧ ih = blue2.height) ∧
      iw * blue2.height ≤ ih * blue2.width + max blue2.width blue2.height ∧
      ih * blue2.width ≤ iw * blue2.height + max blue2.width blue2.height) :=
  ⟨by decide, by decide, thumbnailSize_fit_within blue2 1 (by decide) (by decide)⟩

/-- C5 counterexample: with a 1 by 1 source and target height 300, the
wide-banner resize leaves the icon at 1 by 1 because the fit-within
resize never upscales, so its longer dimension is 1 and not 60 percent
of the height (180). -/
theorem wideIcon_not_sixty_percent :
    thumbnailSize red1.width red1.height (wideIconSize 300) (wideIconSize 300) =
      some (1, 1) ∧ ¬ (1 : Nat) = wideIconSize 300 := by
  constructor <;> decide

/-- C5 (amended): the wide banner resizes the source with the bound
int(0.6 * height) on both axes: a source already within the bound is
left at its original size, otherwise the scaled longer dimension equals
the bound exactly, preserving the aspect ratio to within one pixel of
rounding. -/
theorem wideIcon_scale_bound (source : PImage) (h : Nat) (hv : source.Valid)
    (hs : 1 ≤ wideIconSize h) :
    ∃ iw ih, thumbnailSize source.width source.height (wideIconSize h) (wideIconSize h) =
        some (iw, ih) ∧
      ((source.width ≤ wideIconSize h ∧ source.height ≤ wideIconSize h) →
        iw = source.width ∧ ih = source.height) ∧
      (¬ (source.width ≤ wideIconSize h ∧ source.height ≤ wideIconSize h) →
        max iw ih = wideIconSize h) ∧
      iw * source.height ≤ ih * source.width + max source.width source.height ∧
      ih * source.width ≤ iw * source.height + max source.width source.height := by
  obtain ⟨iw, ih, h1, -, -, -, -, h4, h5, h6, h7⟩ :=
    thumbnailSize_spec source.width source.height (wideIconSize h) hv.1 hv.2 hs
  exact ⟨iw, ih, h1, h4, h5, h6, h7⟩

/-- C5 witness: the theorem applied to the blue 2 by 2 source at target
height 4 (bound 2). -/
theorem wideIcon_scale_bound_witness :
    blue2.Valid ∧ (1 : Nat) ≤ wideIconSize 4 ∧
    (∃ iw ih, thumbnailSize blue2.width blue2.height (wideIconSize 4) (wideIconSize 4) =
        some (iw, ih) ∧
      ((blue2.width ≤ wideIconSize 4 ∧ blue2.height ≤ wideIconSize 4) →
        iw = blue2.width ∧ ih = blue2.height) ∧
      (¬ (blue2.width ≤ wideIconSize 4 ∧ blue2.height ≤ wideIconSize 4) →
        max iw ih = wideIconSize 4) ∧
      iw * blue2.height ≤ ih * blue2.width + max blue2.width blue2.height ∧
      ih * blue2.width ≤ iw * blue2.height + max blue2.width blue2.height) :=
  ⟨by decide, by decide, wideIcon_scale_bound blue2 4 (by decide) (by decide)⟩

/-- The pixel of an optional image at a point (used to observe concrete
runs; the default is only returned for a failed computation). -/
def pixAt (o : Option PImage) (i j : Nat) : RGBA :=
  (o.map fun im => im.pixel i j).getD ⟨0, 0, 0, 0⟩

/-- C6 counterexample: at width 1, height 2 with a fully red source the
wide banner call succeeds but paints the top-left corner with the
source colour, not with the background 18, 18, 20, 255. -/
theorem wideIcon_corner_not_background :
    (createWideIcon R0 red1 1 2).isSome = true ∧
    pixAt (createWideIcon R0 red1 1 2) 0 0 = ⟨255, 0, 0, 255⟩ ∧
    ¬ pixAt (createWideIcon R0 red1 1 2) 0 0 = ⟨18, 18, 20, 255⟩ := by
  refine ⟨?_, ?_, ?_⟩ <;> decide

/-- The four corner pixels of the canvas hold the background colour. -/
def CornersBG (o : Option PImage) (w h : Nat) : Prop :=
  ∃ res, o = some res ∧ res.width = w ∧ res.height = h ∧
    res.pixel 0 0 = ⟨18, 18, 20, 255⟩ ∧ res.pixel (w - 1) 0 = ⟨18, 18, 20, 255⟩ ∧
    res.pixel 0 (h - 1) = ⟨18, 18, 20, 255⟩ ∧ res.pixel (w - 1) (h - 1) = ⟨18, 18, 20, 255⟩

/-- C6 (amended): for canvases that are not degenerately small (any
width, height at least 3 for the wide banner; width at least 4 as well
for the splash screen, which otherwise divides by zero), both generators
return a canvas of exactly the requested dimensions whose four corner
pixels hold the background colour 18, 18, 20, 255. -/
theorem banner_corners_background (R : Resample) (source : PImage) (w h : Nat)
    (hv : source.Valid) (_hw : 1 ≤ w) (hh : 3 ≤ h) :
    CornersBG (createWideIcon R source w h) w h ∧
    (4 ≤ w → CornersBG (createSplashScreen R source w h) w h) := by
  constructor
  · have hs : 1 ≤ wideIconSize h := by unfold wideIconSize; omega
    obtain ⟨res, iw, ih, heq, -, -, -, -, hih, hrw, hrh, hout⟩ :=
      createWideIcon_aux R source w h hv hs
    have hih2 : ih ≤ h - 2 := by unfold wideIconSize at hih; omega
    have hy : Int.fdiv ((h : Int) - (ih : Int)) 2 = (((h - ih) / 2 : Nat) : Int) :=
      fdiv_cast h ih (by omega)
    refine ⟨res, heq, hrw, hrh, ?_, ?_, ?_, ?_⟩ <;>
    · apply hout
      intro hcon
      obtain ⟨-, -, h3, h4⟩ := hcon
      rw [hy] at h3 h4
      omega
  · intro hw4
    have hs : 1 ≤ splashIconSize w h := by unfold splashIconSize; omega
    obtain ⟨res, iw, ih, heq, -, -, -, -, hih, hrw, hrh, hout⟩ :=
      createSplashScreen_aux R source w h hv hs
    have hih2 : ih ≤ h - 2 := by unfold splashIconSize at hih; omega
    have hy : Int.fdiv ((h : Int) - (ih : Int)) 2 = (((h - ih) / 2 : Nat) : Int) :=
      fdiv_cast h ih (by omega)
    refine ⟨res, heq, hrw, hrh, ?_, ?_, ?_, ?_⟩ <;>
    · apply hout
      intro hcon
      obtain ⟨-, -, h3, h4⟩ := hcon
      rw [hy] at h3 h4
      omega

/-- C6 witness: the theorem applied to the red source on a 4 by 4
canvas for both generators. -/
theorem banner_corners_background_witness :
    red1.Valid ∧ (1 : Nat) ≤ 4 ∧ (3 : Nat) ≤ 4 ∧
    (CornersBG (createWideIcon R0 red1 4 4) 4 4 ∧
     (4 ≤ 4 → CornersBG (createSplashScreen R0 red1 4 4) 4 4)) :=
  ⟨by decide, by decide, by decide,
   banner_corners_background R0 red1 4 4 (by decide) (by decide) (by decide)⟩

/-- C7: the splash screen succeeds with the icon bound exactly
min(int(0.5 * height), int(0.3 * width)), its resize preserves the
aspect ratio to within one pixel of rounding, and the canvas and
centering rule are those of the wide banner: the same background colour
18, 18, 20, 255 outside the content rectangle centered at offsets
(dim - icon_dim) / 2. -/
theorem createSplashScreen_layout (R : Resample) (source : PImage) (w h : Nat)
    (hv : source.Valid) (hh : 2 ≤ h) (hw : 4 ≤ w) :
    ∃ res iw ih, createSplashScreen R source w h = some res ∧
      thumbnailSize source.width source.height (min (h * 5 / 10) (w * 3 / 10))
        (min (h * 5 / 10) (w * 3 / 10)) = some (iw, ih) ∧
      iw ≤ min (h * 5 / 10) (w * 3 / 10) ∧ ih ≤ min (h * 5 / 10) (w * 3 / 10) ∧
      iw * source.height ≤ ih * source.width + max source.width source.height ∧
      ih * source.width ≤ iw * source.height + max source.width source.height ∧
      res.width = w ∧ res.height = h ∧
      (∀ i j : Nat, (i < (w - iw) / 2 ∨ (w - iw) / 2 + iw ≤ i ∨
                     j < (h - ih) / 2 ∨ (h - ih) / 2 + ih ≤ j) →
        res.pixel i j = ⟨18, 18, 20, 255⟩) := by
  have hs : 1 ≤ splashIconSize w h := by unfold splashIconSize; omega
  obtain ⟨res, iw, ih, heq, hts, h1iw, hiw, h1ih, hih, hrw, hrh, hout⟩ :=
    createSplashScreen_aux R source w h hv hs
  obtain ⟨iw2, ih2, hts2, -, -, -, -, -, -, ha1, ha2⟩ :=
    thumbnailSize_spec source.width source.height (splashIconSize w h) hv.1 hv.2 hs
  rw [hts] at hts2
  injection hts2 with hts2
  injection hts2 with e1 e2
  subst e1
  subst e2
  have hiww : iw ≤ w := by
    have : splashIconSize w h ≤ w := by unfold splashIconSize; omega
    omega
  have hihh : ih ≤ h := by
    have : splashIconSize w h ≤ h := by unfold splashIconSize; omega
    omega
  have hx : Int.fdiv ((w : Int) - (iw : Int)) 2 = (((w - iw) / 2 : Nat) : Int) :=
    fdiv_cast w iw hiww
  have hy : Int.fdiv ((h : Int) - (ih : Int)) 2 = (((h - ih) / 2 : Nat) : Int) :=
    fdiv_cast h ih hihh
  refine ⟨res, iw, ih, heq, hts, hiw, hih, ha1, ha2, hrw, hrh, ?_⟩
  intro i j hdisj
  apply hout
  intro hcon
  obtain ⟨c1, c2, c3, c4⟩ := hcon
  rw [hx] at c1 c2
  rw [hy] at c3 c4
  omega

/-- C7 witness: the theorem applied to the red source on a 4 by 4
canvas (icon bound min(2, 1) = 1). -/
theorem createSplashScreen_layout_witness :
    red1.Valid ∧ (2 : Nat) ≤ 4 ∧ (4 : Nat) ≤ 4 ∧
    (∃ res iw ih, createSplashScreen R0 red1 4 4 = some res ∧
      thumbnailSize red1.width red1.height (min (4 * 5 / 10) (4 * 3 / 10))
        (min (4 * 5 / 10) (4 * 3 / 10)) = some (iw, ih) ∧
      iw ≤ min (4 * 5 / 10) (4 * 3 / 10) ∧ ih ≤ min (4 * 5 / 10) (4 * 3 / 10) ∧
      iw * red1.height ≤ ih * red1.width + max red1.width red1.height ∧
      ih * red1.width ≤ iw * red1.height + max red1.width red1.height ∧
      res.width = 4 ∧ res.height = 4 ∧
      (∀ i j : Nat, (i < (4 - iw) / 2 ∨ (4 - iw) / 2 + iw ≤ i ∨
                     j < (4 - ih) / 2 ∨ (4 - ih) / 2 + ih ≤ j) →
        res.pixel i j = ⟨18, 18, 20, 255⟩)) :=
  ⟨by decide, by decide, by decide,
   createSplashScreen_layout R0 red1 4 4 (by decide) (by decide) (by decide)⟩

/-- C8: when neither source path exists the process exits with a
non-zero code and writes no output image file. -/
theorem mainModel_missing_sources (R : Resample) (d : Bool) :
    ¬ (mainModel R ⟨none, none, d⟩).exitCode = 0 ∧
    (mainModel R ⟨none, none, d⟩).writes = [] :=
  ⟨Nat.one_ne_zero, rfl⟩

/-- C9: on any valid source, the filenames written are exactly those of
the spec table under the rule base.png for scale 100 and
base.scale-N.png otherwise, in generation order. -/
theorem mainModel_filenames (R : Resample) (fs : FS) (s : PImage)
    (hsel : selectSource fs = some s) (hv : s.Valid) :
    (mainModel R fs).writes.map Prod.fst =
      ["Square44x44Logo.png", "Square44x44Logo.scale-125.png",
       "Square44x44Logo.scale-150.png", "Square44x44Logo.scale-200.png",
       "Square44x44Logo.scale-400.png",
       "Square71x71Logo.png", "Square71x71Logo.scale-125.png",
       "Square71x71Logo.scale-150.png", "Square71x71Logo.scale-200.png",
       "Square71x71Logo.scale-400.png",
       "Square150x150Logo.png", "Square150x150Logo.scale-125.png",
       "Square150x150Logo.scale-150.png", "Square150x150Logo.scale-200.png",
       "Square150x150Logo.scale-400.png",
       "Square310x310Logo.png", "Square310x310Logo.scale-125.png",
       "Square310x310Logo.scale-150.png", "Square310x310Logo.scale-200.png",
       "Square310x310Logo.scale-400.png",
       "StoreLogo.png", "StoreLogo.scale-125.png", "StoreLogo.scale-150.png",
       "StoreLogo.scale-200.png", "StoreLogo.scale-400.png",
       "Wide310x150Logo.png", "Wide310x150Logo.scale-125.png",
       "Wide310x150Logo.scale-150.png", "Wide310x150Logo.scale-200.png",
       "Wide310x150Logo.scale-400.png",
       "SplashScreen.png", "SplashScreen.scale-125.png",
       "SplashScreen.scale-150.png", "SplashScreen.scale-200.png"] := by
  have hv2 : (s.convert "RGBA").Valid := hv
  have hall : ∀ e ∈ allEntries, (genOne R (s.convert "RGBA") e).isSome = true :=
    fun e he => genOne_isSome R (s.convert "RGBA") e hv2 (allEntries_ok e he)
  have hmap := runList_map (genOne R (s.convert "RGBA")) Prod.fst fileNameOf
    allEntries hall (fun a _ b hb => genOne_name R (s.convert "RGBA") a b hb)
  unfold mainModel
  rw [hsel]
  dsimp only
  rw [hmap]
  rfl

/-- C9 witness: the theorem applied to the concrete red PNG-only
filesystem. -/
theorem mainModel_filenames_witness :
    selectSource fs0 = some red1 ∧ red1.Valid ∧
    (mainModel R0 fs0).writes.map Prod.fst =
      ["Square44x44Logo.png", "Square44x44Logo.scale-125.png",
       "Square44x44Logo.scale-150.png", "Square44x44Logo.scale-200.png",
       "Square44x44Logo.scale-400.png",
       "Square71x71Logo.png", "Square71x71Logo.scale-125.png",
       "Square71x71Logo.scale-150.png", "Square71x71Logo.scale-200.png",
       "Square71x71Logo.scale-400.png",
       "Square150x150Logo.png", "Square150x150Logo.scale-125.png",
       "Square150x150Logo.scale-150.png", "Square150x150Logo.scale-200.png",
       "Square150x150Logo.scale-400.png",
       "Square310x310Logo.png", "Square310x310Logo.scale-125.png",
       "Square310x310Logo.scale-150.png", "Square310x310Logo.scale-200.png",
       "Square310x310Logo.scale-400.png",
       "StoreLogo.png", "StoreLogo.scale-125.png", "StoreLogo.scale-150.png",
       "StoreLogo.scale-200.png", "StoreLogo.scale-400.png",
       "Wide310x150Logo.png", "Wide310x150Logo.scale-125.png",
       "Wide310x150Logo.scale-150.png", "Wide310x150Logo.scale-200.png",
       "Wide310x150Logo.scale-400.png",
       "SplashScreen.png", "SplashScreen.scale-125.png",
       "SplashScreen.scale-150.png", "SplashScreen.scale-200.png"] :=
  ⟨rfl, by decide, mainModel_filenames R0 fs0 red1 rfl (by decide)⟩

/-- C10: in the heap model of Python object mutation, each of the three
generators leaves the cell of the source image it receives unchanged:
the in-place thumbnail is applied to a fresh copy cell and the in-place
paste to the fresh canvas cell, never to the source cell. -/
theorem generators_preserve_source (R : Resample) (heap : Heap) (src : Nat)
    (hsrc : src < heap.length) :
    (∀ size h2 r, createSquareIconH R heap src size = some (h2, r) →
       Heap.read h2 src = Heap.read heap src) ∧
    (∀ w h h2 r, createWideIconH R heap src w h = some (h2, r) →
       Heap.read h2 src = Heap.read heap src) ∧
    (∀ w h h2 r, createSplashScreenH R heap src w h = some (h2, r) →
       Heap.read h2 src = Heap.read heap src) := by
  refine ⟨?_, ?_, ?_⟩
  · intro size h2 r heq
    unfold createSquareIconH at heq
    dsimp only at heq
    split at heq
    · exact absurd heq (by simp)
    · injection heq with heq
      injection heq with e1 e2
      subst e1
      rw [Heap.read_set_ne, Heap.read_append, Heap.read_set_ne, Heap.read_append]
      all_goals first
        | omega
        | (simp only [List.length_set, List.length_append, List.length_cons,
             List.length_nil]; omega)
  · intro w h h2 r heq
    unfold createWideIconH at heq
    dsimp only at heq
    split at heq
    · exact absurd heq (by simp)
    · injection heq with heq
      injection heq with e1 e2
      subst e1
      rw [Heap.read_set_ne, Heap.read_set_ne, Heap.read_append, Heap.read_append]
      all_goals first
        | omega
        | (simp only [List.length_set, List.length_append, List.length_cons,
             List.length_nil]; omega)
  · intro w h h2 r heq
    unfold createSplashScreenH at heq
    dsimp only at heq
    split at heq
    · exact absurd heq (by simp)
    · injection heq with heq
      injection heq with e1 e2
      subst e1
      rw [Heap.read_set_ne, Heap.read_set_ne, Heap.read_append, Heap.read_append]
      all_goals first
        | omega
        | (simp only [List.length_set, List.length_append, List.length_cons,
             List.length_nil]; omega)

/-- C10 witness: the theorem applied to a one-cell heap holding the red
source, with small concrete canvas parameters. -/
theorem generators_preserve_source_witness :
    (0 : Nat) < [red1].length ∧
    ((∀ size h2 r, createSquareIconH R0 [red1] 0 size = some (h2, r) →
       Heap.read h2 0 = Heap.read [red1] 0) ∧
     (∀ w h h2 r, createWideIconH R0 [red1] 0 w h = some (h2, r) →
       Heap.read h2 0 = Heap.read [red1] 0) ∧
     (∀ w h h2 r, createSplashScreenH R0 [red1] 0 w h = some (h2, r) →
       Heap.read h2 0 = Heap.read [red1] 0)) :=
  ⟨by decide, generators_preserve_source R0 [red1] 0 (by decide)⟩
